import Mathlib

/-!
Shallow embedding of `src/libs/langgraph/src/constants.ts` of the
langgraphjs repository, together with proofs about the constants and
classes it declares.  Values of dynamic (`any` / `unknown`) type are
modelled by the inductive `JsValue`; the classes `Send` and `Command`,
the type `Interrupt`, and the functions `_isSendInterface`,
`isCommand` and `Command._updateAsTuples` are transcribed directly
from the source.  A few operations that the source file only declares
constants for (task-id derivation, recursion-limit defaulting,
checkpoint-namespace joining, command dispatch) are modelled from the
specification and marked as such in their doc comments.
-/

namespace LangGraph

/-- Model of a JavaScript runtime value, as far as the embedded code
inspects one: `undefined`, `null`, booleans, numbers, strings, arrays
and plain objects (association lists of string keys). -/
inductive JsValue where
  | undefined
  | null
  | bool (b : Bool)
  | num (n : Int)
  | str (s : String)
  | arr (elems : List JsValue)
  | obj (fields : List (String × JsValue))

/-- JavaScript `typeof` on the modelled values (`typeof null` is `"object"`,
as in JavaScript). -/
def jsTypeof : JsValue → String
  | .undefined => "undefined"
  | .null => "object"
  | .bool _ => "boolean"
  | .num _ => "number"
  | .str _ => "string"
  | .arr _ => "object"
  | .obj _ => "object"

/-- JavaScript truthiness of a modelled value. -/
def truthy : JsValue → Bool
  | .undefined => false
  | .null => false
  | .bool b => b
  | .num n => n != 0
  | .str s => s != ""
  | .arr _ => true
  | .obj _ => true

/-- Property read `x[k]`.  Reading a property of `null` or `undefined`
throws a TypeError in JavaScript, modelled as `none`; on every other
value the read yields the stored field or `undefined`. -/
def getField (x : JsValue) (k : String) : Option JsValue :=
  match x with
  | .undefined => none
  | .null => none
  | .obj fields => some ((fields.lookup k).getD .undefined)
  | _ => some .undefined

/-- Test for the `undefined` value. -/
def isUndefined : JsValue → Bool
  | .undefined => true
  | _ => false

/-- Test `Array.isArray`. -/
def isArray : JsValue → Bool
  | .arr _ => true
  | _ => false

/-- Elements of an array value (only used under an `isArray` guard). -/
def arrayElems : JsValue → List JsValue
  | .arr es => es
  | _ => []

/-- JavaScript `Object.entries` (only used on plain objects, the only
values that reach its call site in `_updateAsTuples`). -/
def objectEntries : JsValue → List (String × JsValue)
  | .obj fields => fields
  | _ => []

/-! String constants of `constants.ts`, with their exported names. -/

def INPUT : String := "__input__"

def ERROR : String := "__error__"

def CONFIG_KEY_SEND : String := "__pregel_send"

def CONFIG_KEY_READ : String := "__pregel_read"

def CONFIG_KEY_CHECKPOINTER : String := "__pregel_checkpointer"

def CONFIG_KEY_RESUMING : String := "__pregel_resuming"

def CONFIG_KEY_TASK_ID : String := "__pregel_task_id"

def CONFIG_KEY_STREAM : String := "__pregel_stream"

def CONFIG_KEY_RESUME_VALUE : String := "__pregel_resume_value"

def CONFIG_KEY_WRITES : String := "__pregel_writes"

def CONFIG_KEY_SCRATCHPAD : String := "__pregel_scratchpad"

def CONFIG_KEY_CHECKPOINT_NS : String := "checkpoint_ns"

def CONFIG_KEY_CHECKPOINT_MAP : String := "checkpoint_map"

def INTERRUPT : String := "__interrupt__"

def RESUME : String := "__resume__"

def RUNTIME_PLACEHOLDER : String := "__pregel_runtime_placeholder__"

def RECURSION_LIMIT_DEFAULT : Nat := 25

def SELF : String := "__self__"

def TASKS : String := "__pregel_tasks"

def PUSH : String := "__pregel_push"

def PULL : String := "__pregel_pull"

def TASK_NAMESPACE : String := "6ba7b831-9dad-11d1-80b4-00c04fd430c8"

def NULL_TASK_ID : String := "00000000-0000-0000-0000-000000000000"

/-- Array `RESERVED` of `constants.ts`, in source order. -/
def RESERVED : List String :=
  [INTERRUPT, RESUME, ERROR, TASKS, CONFIG_KEY_SEND, CONFIG_KEY_READ,
    CONFIG_KEY_CHECKPOINTER, CONFIG_KEY_RESUMING, CONFIG_KEY_TASK_ID,
    CONFIG_KEY_STREAM, CONFIG_KEY_CHECKPOINT_MAP, INPUT]

def CHECKPOINT_NAMESPACE_SEPARATOR : String := "|"

def CHECKPOINT_NAMESPACE_END : String := ":"

/-- Class `Send`: the constructor stores the given `node` and `args`
unchanged as public fields; every instance also carries the class
field `lg_name = "Send"` (see `Send.toJs`). -/
structure Send where
  node : String
  args : JsValue

/-- Runtime-object view of a `Send` instance. -/
def Send.toJs (s : Send) : JsValue :=
  .obj [("lg_name", .str "Send"), ("node", .str s.node), ("args", s.args)]

/-- Function `_isSendInterface` of `constants.ts`:
`typeof operation.node === "string" && operation.args !== undefined`,
with the property reads throwing (modelled as `Except.error`) when the
argument is `null` or `undefined`.  The conjunction short-circuits, so
`args` is only read when the `node` test passed. -/
def _isSendInterface (x : JsValue) : Except String Bool :=
  match getField x "node" with
  | none => .error "TypeError"
  | some node =>
    if jsTypeof node == "string" then
      match getField x "args" with
      | none => .error "TypeError"
      | some args => .ok (!(isUndefined args))
    else
      .ok false

/-- Singleton type of the TypeScript string-literal type `"during"`,
the declared type of the `when` field of `Interrupt`. -/
inductive InterruptWhen where
  | during

/-- String carried by a value of the literal type `"during"`. -/
def InterruptWhen.asString : InterruptWhen → String
  | .during => "during"

/-- Type `Interrupt` of `constants.ts`: a payload `value`, a `when`
field of the literal type `"during"`, an optional boolean `resumable`
and an optional namespace path `ns`. -/
structure Interrupt where
  value : JsValue
  when : InterruptWhen
  resumable : Option Bool
  ns : Option (List String)

/-- One element of a `goto` value: a node name or a `Send`. -/
inductive GotoItem where
  | node (name : String)
  | send (s : Send)

/-- Shape of the `goto` field of `CommandParams`: a single item or an
array of items. -/
inductive GotoArg where
  | single (g : GotoItem)
  | list (l : List GotoItem)

/-- Type `CommandParams` of `constants.ts`; an absent optional field is
`none` (respectively `JsValue.undefined` for the dynamic `update` and
`resume` fields). -/
structure CommandParams where
  resume : JsValue
  graph : Option String
  update : JsValue
  goto : Option GotoArg

/-- Class `Command`: fields as declared in the class body.  The field
initializers set `update` and `goto` to `[]`, but the constructor
overwrites `update` unconditionally with `args.update`, so only the
`goto` initializer can survive construction. -/
structure Command where
  graph : Option String
  update : JsValue
  resume : JsValue
  goto : List GotoItem

/-- Static field `Command.PARENT`. -/
def Command.PARENT : String := "__parent__"

/-- JavaScript truthiness of a `goto` argument: among the types that
`CommandParams.goto` admits, only the empty string is falsy. -/
def gotoTruthy : GotoArg → Bool
  | .single (.node name) => name != ""
  | .single (.send _) => true
  | .list _ => true

/-- Normalization the `Command` constructor applies to `args.goto`:
`if (args.goto) { this.goto = Array.isArray(args.goto) ? args.goto : [args.goto]; }`
on top of the field initializer `goto = []`. -/
def normalizeGoto : Option GotoArg → List GotoItem
  | none => []
  | some g =>
    if gotoTruthy g then
      match g with
      | .single x => [x]
      | .list l => l
    else []

/-- Constructor of `Command`: stores `resume`, `graph` and `update` as
passed and normalizes `goto` via `normalizeGoto`. -/
def Command.ofParams (args : CommandParams) : Command :=
  ⟨args.graph, args.update, args.resume, normalizeGoto args.goto⟩

/-- Callback of the `every` test in `_updateAsTuples`: an element is a
valid pair entry when it is a two-element array whose first element is
a string. -/
def isPairEntry : JsValue → Bool
  | .arr [k, _] => jsTypeof k == "string"
  | _ => false

/-- View of a valid pair entry as a `(key, value)` pair; only applied
to elements satisfying `isPairEntry`. -/
def pairOf : JsValue → String × JsValue
  | .arr (.str k :: v :: _) => (k, v)
  | _ => ("", .undefined)

/-- Method `Command._updateAsTuples` of `constants.ts`.  The second
branch returns `this.update` itself (an array of pair entries); here
that array is rendered as the corresponding `(key, value)` list. -/
def Command._updateAsTuples (c : Command) : List (String × JsValue) :=
  if truthy c.update && (jsTypeof c.update == "object") && !(isArray c.update) then
    objectEntries c.update
  else if isArray c.update && (arrayElems c.update).all isPairEntry then
    (arrayElems c.update).map pairOf
  else
    [("__root__", c.update)]

/-- Test of the `lg_name` read in `isCommand` against `"Command"`. -/
def lgNameIsCommand (v : JsValue) : Bool :=
  match v with
  | .str s => s == "Command"
  | _ => false

/-- Function `isCommand` of `constants.ts`:
`typeof x === "object" && !!x && (x as Command).lg_name === "Command"`.
The conjunction short-circuits, so the `lg_name` read only happens on a
non-null object and the `none` branch below is never reached with a
visible effect. -/
def isCommand (x : JsValue) : Bool :=
  (jsTypeof x == "object") && truthy x &&
    (match getField x "lg_name" with
     | some v => lgNameIsCommand v
     | none => false)

/-- Evaluation of `isCommand` in which a property read of `null` or
`undefined` throws (`Except.error`), used to state that `isCommand`
itself never throws on any input. -/
def isCommandE (x : JsValue) : Except String Bool :=
  if jsTypeof x == "object" then
    if truthy x then
      match getField x "lg_name" with
      | none => .error "TypeError"
      | some v => .ok (lgNameIsCommand v)
    else .ok false
  else .ok false

/-- Runtime-object view of one `goto` element. -/
def GotoItem.toJs : GotoItem → JsValue
  | .node name => .str name
  | .send s => s.toJs

/-- Runtime-object view of a `Command` instance: its own fields plus
the class fields `lg_name = "Command"` and `lc_direct_tool_output = true`. -/
def Command.toJs (c : Command) : JsValue :=
  .obj [("lg_name", .str "Command"),
    ("lc_direct_tool_output", .bool true),
    ("graph", match c.graph with | none => .undefined | some g => .str g),
    ("update", c.update),
    ("resume", c.resume),
    ("goto", .arr (c.goto.map GotoItem.toJs))]

/-- Modelled from the spec: the task-id derivation (a uuid5-style
digest over the fixed `TASK_NAMESPACE`, the checkpoint namespace, the
node name and the triggering-write identity) is not part of
`constants.ts`, which only declares `TASK_NAMESPACE`; it is modelled
as a deterministic encoding of exactly those inputs under
`TASK_NAMESPACE`. -/
def taskId (checkpointNs : List String) (node : String) (trigger : String) : String :=
  TASK_NAMESPACE ++ CHECKPOINT_NAMESPACE_END ++
    String.intercalate CHECKPOINT_NAMESPACE_SEPARATOR checkpointNs ++
    CHECKPOINT_NAMESPACE_END ++ node ++ CHECKPOINT_NAMESPACE_END ++ trigger

/-- Modelled from the spec: reading the recursion limit from a caller
configuration that may leave `recursion_limit` unset; the defaulting
site is not part of `constants.ts`, which only declares
`RECURSION_LIMIT_DEFAULT`. -/
def recursionLimitOf (configured : Option Nat) : Nat :=
  configured.getD RECURSION_LIMIT_DEFAULT

/-- Modelled from the spec: a child checkpoint namespace extends the
parent namespace string with the subgraph invocation's own segment,
joined by `CHECKPOINT_NAMESPACE_SEPARATOR`; the joining site is not
part of `constants.ts`, which only declares the separator. -/
def childNamespace (parent : String) (segment : String) : String :=
  parent ++ CHECKPOINT_NAMESPACE_SEPARATOR ++ segment

/-- Modelled from the spec: the `checkpoint_ns` key of a nesting path,
its segments joined by `CHECKPOINT_NAMESPACE_SEPARATOR`. -/
def joinNamespace : List String → String
  | [] => ""
  | [s] => s
  | s :: t :: r => s ++ CHECKPOINT_NAMESPACE_SEPARATOR ++ joinNamespace (t :: r)

/-- Namespace segment that is nonempty and avoids the separator
character. -/
def validSegment (s : String) : Prop :=
  s ≠ "" ∧ '|' ∉ s.data

instance (s : String) : Decidable (validSegment s) :=
  inferInstanceAs (Decidable (s ≠ "" ∧ '|' ∉ s.data))

/-- Target graph of a `Command`. -/
inductive CommandTarget where
  | currentGraph
  | parentGraph
  | otherGraph (id : String)
  deriving DecidableEq

/-- Modelled from the spec: the scheduler's reading of a `Command`'s
`graph` field — unset targets the current graph, `Command.PARENT` the
closest parent graph (where the update and goto are then applied),
anything else the graph with that id; the dispatch site is not part of
`constants.ts`, which only declares `Command.PARENT`. -/
def commandTarget (c : Command) : CommandTarget :=
  match c.graph with
  | none => .currentGraph
  | some g => if g = Command.PARENT then .parentGraph else .otherGraph g

/-! Helper lemmas. -/

theorem joinNamespace_nil : joinNamespace [] = "" := rfl

theorem joinNamespace_single (s : String) : joinNamespace [s] = s := rfl

theorem joinNamespace_cons (s t : String) (r : List String) :
    joinNamespace (s :: t :: r) =
      s ++ CHECKPOINT_NAMESPACE_SEPARATOR ++ joinNamespace (t :: r) := rfl

theorem data_sep_append (s j : String) :
    (s ++ CHECKPOINT_NAMESPACE_SEPARATOR ++ j).data = s.data ++ '|' :: j.data := by
  have h1 : (CHECKPOINT_NAMESPACE_SEPARATOR : String).data = ['|'] := rfl
  simp [String.data_append, h1]

theorem sep_split {c : Char} (a : List Char) : ∀ (b as bs : List Char), c ∉ a → c ∉ b →
    a ++ c :: as = b ++ c :: bs → a = b ∧ as = bs := by
  induction a with
  | nil =>
    intro b as bs _ hb h
    cases b with
    | nil => simpa using h
    | cons y b2 =>
      simp only [List.nil_append, List.cons_append, List.cons.injEq] at h
      exact absurd (show c ∈ y :: b2 by rw [h.1]; exact List.mem_cons_self y b2) hb
  | cons x a2 ih =>
    intro b as bs ha hb h
    cases b with
    | nil =>
      simp only [List.cons_append, List.nil_append, List.cons.injEq] at h
      exact absurd (show c ∈ x :: a2 by rw [← h.1]; exact List.mem_cons_self x a2) ha
    | cons y b2 =>
      simp only [List.cons_append, List.cons.injEq] at h
      obtain ⟨hxy, h2⟩ := h
      have hc1 : c ∉ a2 := fun hm => ha (List.mem_cons_of_mem x hm)
      have hc2 : c ∉ b2 := fun hm => hb (List.mem_cons_of_mem y hm)
      obtain ⟨e1, e2⟩ := ih b2 as bs hc1 hc2 h2
      exact ⟨by rw [hxy, e1], e2⟩

theorem joinNamespace_ne_empty (l : List String) (hne : l ≠ [])
    (hval : ∀ s ∈ l, validSegment s) : joinNamespace l ≠ "" := by
  match l with
  | [] => exact absurd rfl hne
  | [s] =>
    rw [joinNamespace_single]
    exact (hval s (by simp)).1
  | s :: t :: r =>
    intro h
    have hd : s.data ++ '|' :: (joinNamespace (t :: r)).data = [] := by
      rw [← data_sep_append, ← joinNamespace_cons, h]
    exact List.cons_ne_nil _ _ (List.append_eq_nil.mp hd).2

theorem sep_mem_join (s t : String) (r : List String) :
    '|' ∈ (joinNamespace (s :: t :: r)).data := by
  rw [joinNamespace_cons, data_sep_append]
  exact List.mem_append_right _ (List.mem_cons_self _ _)

theorem joinNamespace_injective (l1 : List String) : ∀ (l2 : List String),
    (∀ s ∈ l1, validSegment s) → (∀ s ∈ l2, validSegment s) →
    joinNamespace l1 = joinNamespace l2 → l1 = l2 := by
  induction l1 with
  | nil =>
    intro l2 _ h2 h
    cases l2 with
    | nil => rfl
    | cons b l2t =>
      rw [joinNamespace_nil] at h
      exact absurd h.symm (joinNamespace_ne_empty (b :: l2t) (by simp) h2)
  | cons a l1t ih =>
    intro l2 h1 h2 h
    cases l2 with
    | nil =>
      rw [joinNamespace_nil] at h
      exact absurd h (joinNamespace_ne_empty (a :: l1t) (by simp) h1)
    | cons b l2t =>
      cases l1t with
      | nil =>
        cases l2t with
        | nil =>
          rw [joinNamespace_single, joinNamespace_single] at h
          rw [h]
        | cons t2 r2 =>
          have hm := sep_mem_join b t2 r2
          rw [← h, joinNamespace_single] at hm
          exact absurd hm (h1 a (by simp)).2
      | cons t1 r1 =>
        cases l2t with
        | nil =>
          have hm := sep_mem_join a t1 r1
          rw [h, joinNamespace_single] at hm
          exact absurd hm (h2 b (by simp)).2
        | cons t2 r2 =>
          have hd := congrArg String.data h
          rw [joinNamespace_cons, joinNamespace_cons, data_sep_append, data_sep_append] at hd
          obtain ⟨e1, e2⟩ := sep_split a.data b.data _ _
            (h1 a (by simp)).2 (h2 b (by simp)).2 hd
          have ea : a = b := String.ext e1
          have ej : joinNamespace (t1 :: r1) = joinNamespace (t2 :: r2) := String.ext e2
          have et := ih (t2 :: r2) (fun s hs => h1 s (List.mem_cons_of_mem a hs))
            (fun s hs => h2 s (List.mem_cons_of_mem b hs)) ej
          rw [ea, et]

theorem lgNameIsCommand_iff (v : JsValue) :
    lgNameIsCommand v = true ↔ v = JsValue.str "Command" := by
  cases v <;> simp [lgNameIsCommand]

/-! Claim theorems. -/

/-- C1 counterexample: the resume-value slot key `__pregel_resume_value`,
the writes key `__pregel_writes` and the scratchpad key
`__pregel_scratchpad` are not members of `RESERVED`, refuting the claim
that every listed key is in the reserved-name registry. -/
theorem c1_counterexample :
    CONFIG_KEY_RESUME_VALUE ∉ RESERVED ∧ CONFIG_KEY_WRITES ∉ RESERVED ∧
      CONFIG_KEY_SCRATCHPAD ∉ RESERVED := by decide

/-- C1 (amended): the reserved-name registry `RESERVED` contains
`__interrupt__`, `__resume__`, `__error__`, the task channel key, the
task-scoped send and read channel keys, the checkpointer, resuming,
task-id, stream and checkpoint-map keys and `__input__`, but it does
not contain the task-scoped writes key, the resume-value slot key or
the scratchpad key. -/
theorem c1_reserved_registry :
    INTERRUPT ∈ RESERVED ∧ RESUME ∈ RESERVED ∧ ERROR ∈ RESERVED ∧
    TASKS ∈ RESERVED ∧ CONFIG_KEY_SEND ∈ RESERVED ∧ CONFIG_KEY_READ ∈ RESERVED ∧
    CONFIG_KEY_CHECKPOINTER ∈ RESERVED ∧ CONFIG_KEY_RESUMING ∈ RESERVED ∧
    CONFIG_KEY_TASK_ID ∈ RESERVED ∧ CONFIG_KEY_STREAM ∈ RESERVED ∧
    CONFIG_KEY_CHECKPOINT_MAP ∈ RESERVED ∧ INPUT ∈ RESERVED ∧
    CONFIG_KEY_RESUME_VALUE ∉ RESERVED ∧ CONFIG_KEY_WRITES ∉ RESERVED ∧
    CONFIG_KEY_SCRATCHPAD ∉ RESERVED := by decide

/-- C2: task-id derivation is a pure function of the checkpoint
namespace, the node name and the triggering-write identity under the
fixed namespace UUID `TASK_NAMESPACE`, so two runs scheduling the same
logical step (in particular a run paused by an interrupt and its later
resume) derive equal task ids. -/
theorem c2_taskId_deterministic :
    TASK_NAMESPACE = "6ba7b831-9dad-11d1-80b4-00c04fd430c8" ∧
    ∀ (ns ns2 : List String) (node node2 trigger trigger2 : String),
      ns = ns2 → node = node2 → trigger = trigger2 →
      taskId ns node trigger = taskId ns2 node2 trigger2 := by
  refine ⟨rfl, ?_⟩
  intro ns ns2 node node2 trigger trigger2 h1 h2 h3
  rw [h1, h2, h3]

/-- C2 witness: the task id of a concrete step before an interrupt
equals the task id derived again on resume. -/
theorem c2_taskId_witness :
    taskId ["graph"] "nodeA" "push0" = taskId ["graph"] "nodeA" "push0" :=
  c2_taskId_deterministic.2 ["graph"] ["graph"] "nodeA" "nodeA" "push0" "push0"
    rfl rfl rfl

/-- C3 counterexample: the `resumable` field of `Interrupt` is
optional (`resumable?: boolean`), so not every `Interrupt` carries a
boolean `resumable` flag — the concrete interrupt below omits it. -/
theorem c3_counterexample :
    ¬ (∀ i : Interrupt, i.resumable.isSome = true) := by
  intro h
  have hc := h ⟨JsValue.str "need input", InterruptWhen.during, none, none⟩
  simp at hc

/-- C3 (amended): every `Interrupt` carries a `when` field whose value
is exactly the string `"during"` — the declared literal type admits no
other value — together with the payload in `value`, an optional
boolean `resumable` flag and an optional namespace path `ns`. -/
theorem c3_interrupt_when :
    (∀ i : Interrupt, i.when = InterruptWhen.during ∧ i.when.asString = "during") ∧
    (∀ w : InterruptWhen, w.asString = "during") := by
  constructor
  · intro i
    cases i with
    | mk v w r n => cases w; exact ⟨rfl, rfl⟩
  · intro w
    cases w
    rfl

/-- C3 witness: a concrete interrupt's `when` field renders as the
string `"during"`. -/
theorem c3_witness :
    (⟨JsValue.str "need input", InterruptWhen.during, some true, none⟩ :
      Interrupt).when.asString = "during" :=
  (c3_interrupt_when.1
    ⟨JsValue.str "need input", InterruptWhen.during, some true, none⟩).2

/-- C4: the recursion limit defaults to 25 when the caller's
configuration does not set `recursion_limit`. -/
theorem c4_recursion_limit_default :
    RECURSION_LIMIT_DEFAULT = 25 ∧ recursionLimitOf none = 25 :=
  ⟨rfl, rfl⟩

/-- C5 counterexample: a `Command` constructed with the single empty
string `""` as `goto` does not wrap it into a one-element array — the
constructor's truthiness test skips the falsy empty string and `goto`
keeps its `[]` initializer. -/
theorem c5_counterexample :
    (Command.ofParams ⟨JsValue.undefined, none, JsValue.undefined,
        some (GotoArg.single (GotoItem.node ""))⟩).goto = [] ∧
    (Command.ofParams ⟨JsValue.undefined, none, JsValue.undefined,
        some (GotoArg.single (GotoItem.node ""))⟩).goto ≠ [GotoItem.node ""] := by
  refine ⟨rfl, ?_⟩
  intro h
  simp [Command.ofParams, normalizeGoto, gotoTruthy] at h

/-- C5 (amended): the `Command` constructor stores `resume`, `graph`
and `update` as passed and normalizes the routing field so that `goto`
is always an array: an absent `goto` yields the empty array, an array
is kept as given, a single `Send` or single nonempty string is wrapped
in a one-element array, and a single empty string (falsy in the
constructor's truthiness test) also yields the empty array. -/
theorem c5_command_constructor (args : CommandParams) :
    (Command.ofParams args).resume = args.resume ∧
    (Command.ofParams args).graph = args.graph ∧
    (Command.ofParams args).update = args.update ∧
    (args.goto = none → (Command.ofParams args).goto = []) ∧
    (∀ l, args.goto = some (GotoArg.list l) → (Command.ofParams args).goto = l) ∧
    (∀ s, args.goto = some (GotoArg.single (GotoItem.send s)) →
      (Command.ofParams args).goto = [GotoItem.send s]) ∧
    (∀ name, name ≠ "" → args.goto = some (GotoArg.single (GotoItem.node name)) →
      (Command.ofParams args).goto = [GotoItem.node name]) ∧
    (args.goto = some (GotoArg.single (GotoItem.node "")) →
      (Command.ofParams args).goto = []) := by
  refine ⟨rfl, rfl, rfl, ?_, ?_, ?_, ?_, ?_⟩
  · intro h
    show normalizeGoto args.goto = []
    rw [h]
    rfl
  · intro l h
    show normalizeGoto args.goto = l
    rw [h]
    simp [normalizeGoto, gotoTruthy]
  · intro s h
    show normalizeGoto args.goto = [GotoItem.send s]
    rw [h]
    rfl
  · intro name hne h
    show normalizeGoto args.goto = [GotoItem.node name]
    rw [h]
    simp [normalizeGoto, gotoTruthy, hne]
  · intro h
    show normalizeGoto args.goto = []
    rw [h]
    rfl

/-- C5 witness: a single nonempty node name passed as `goto` is wrapped
in a one-element array, and an absent `goto` yields the empty array. -/
theorem c5_witness :
    (Command.ofParams ⟨JsValue.undefined, none, JsValue.undefined,
        some (GotoArg.single (GotoItem.node "nodeB"))⟩).goto = [GotoItem.node "nodeB"] ∧
    (Command.ofParams ⟨JsValue.undefined, none, JsValue.undefined, none⟩).goto = [] := by
  constructor
  · exact (c5_command_constructor ⟨JsValue.undefined, none, JsValue.undefined,
      some (GotoArg.single (GotoItem.node "nodeB"))⟩).2.2.2.2.2.2.1 "nodeB"
      (by decide) rfl
  · exact (c5_command_constructor
      ⟨JsValue.undefined, none, JsValue.undefined, none⟩).2.2.2.1 rfl

/-- C6: a value whose property reads are defined is recognized by
`_isSendInterface` exactly when its `node` field is a string and its
`args` field is defined, and the `Send` constructor stores the given
`node` and `args` unchanged. -/
theorem c6_send_interface :
    (∀ (x node args : JsValue),
      getField x "node" = some node → getField x "args" = some args →
      (_isSendInterface x = Except.ok true ↔
        (jsTypeof node = "string" ∧ args ≠ JsValue.undefined))) ∧
    (∀ (n : String) (a : JsValue), (Send.mk n a).node = n ∧ (Send.mk n a).args = a) := by
  constructor
  · intro x node args h1 h2
    simp only [_isSendInterface, h1, h2]
    by_cases hc : jsTypeof node = "string"
    · simp only [hc]
      simp only [beq_self_eq_true, if_pos]
      cases args <;> simp [isUndefined]
    · have hb : (jsTypeof node == "string") = false := by
        simp [hc]
      simp [hb, hc]
  · intro n a
    exact ⟨rfl, rfl⟩

/-- C6 witness: a concrete object with a string `node` and defined
`args` is recognized, and a concrete `Send` keeps its fields. -/
theorem c6_witness :
    _isSendInterface (JsValue.obj [("node", JsValue.str "generate_joke"),
      ("args", JsValue.obj [])]) = Except.ok true ∧
    (Send.mk "generate_joke" (JsValue.obj [])).node = "generate_joke" := by
  constructor
  · exact (c6_send_interface.1
      (JsValue.obj [("node", JsValue.str "generate_joke"), ("args", JsValue.obj [])])
      (JsValue.str "generate_joke") (JsValue.obj []) rfl rfl).mpr
      ⟨rfl, fun h => JsValue.noConfusion h⟩
  · exact (c6_send_interface.2 "generate_joke" (JsValue.obj [])).1

/-- C7 counterexample: two distinct nesting paths can map to the same
`checkpoint_ns` key when a segment itself contains the separator
character: the one-segment path `["a|b"]` and the two-segment path
`["a", "b"]` both join to `"a|b"`. -/
theorem c7_counterexample :
    (["a|b"] : List String) ≠ ["a", "b"] ∧
      joinNamespace ["a|b"] = joinNamespace ["a", "b"] := by
  constructor
  · decide
  · decide

/-- C7 (amended): the child namespace obtained by extending a parent
namespace with a segment joined by the separator `|` is always
distinct from the parent, and two distinct nesting paths whose
segments are nonempty and do not contain the separator character never
map to the same `checkpoint_ns` key. -/
theorem c7_namespace_keys_distinct :
    (∀ parent segment : String, childNamespace parent segment ≠ parent) ∧
    (∀ l1 l2 : List String, (∀ s ∈ l1, validSegment s) → (∀ s ∈ l2, validSegment s) →
      l1 ≠ l2 → joinNamespace l1 ≠ joinNamespace l2) := by
  constructor
  · intro parent segment h
    have hlen := congrArg String.length h
    have hsep : CHECKPOINT_NAMESPACE_SEPARATOR.length = 1 := rfl
    simp only [childNamespace, String.length_append, hsep] at hlen
    omega
  · intro l1 l2 h1 h2 hne h
    exact hne (joinNamespace_injective l1 l2 h1 h2 h)

/-- C7 witness: a concrete child namespace differs from its parent,
and two concrete distinct valid paths join to distinct keys. -/
theorem c7_witness :
    childNamespace "parent" "child" ≠ "parent" ∧
      joinNamespace ["a"] ≠ joinNamespace ["b"] := by
  have h := c7_namespace_keys_distinct
  exact ⟨h.1 "parent" "child", h.2 ["a"] ["b"] (by decide) (by decide) (by decide)⟩

/-- C8: a `Command` targets the closest parent graph exactly when its
`graph` field equals the sentinel `Command.PARENT`, which is the
string `"__parent__"`; when `graph` is unset the command applies to
the current graph. -/
theorem c8_command_parent :
    Command.PARENT = "__parent__" ∧
    (∀ c : Command, commandTarget c = CommandTarget.parentGraph ↔
      c.graph = some "__parent__") ∧
    (∀ c : Command, c.graph = none → commandTarget c = CommandTarget.currentGraph) := by
  refine ⟨rfl, ?_, ?_⟩
  · intro c
    cases hg : c.graph with
    | none => simp [commandTarget, hg]
    | some g =>
      by_cases he : g = Command.PARENT
      · simp [commandTarget, hg, he, Command.PARENT]
      · simp only [commandTarget, hg, if_neg he, Option.some.injEq]
        constructor
        · intro hfalse
          exact absurd hfalse (by simp)
        · intro hfalse
          exact absurd hfalse he
  · intro c hg
    simp [commandTarget, hg]

/-- C8 witness: a concrete `Command` whose `graph` is the sentinel
targets the parent graph, and one with `graph` unset targets the
current graph. -/
theorem c8_witness :
    commandTarget (Command.ofParams
      ⟨JsValue.undefined, some "__parent__", JsValue.undefined, none⟩) =
        CommandTarget.parentGraph ∧
    commandTarget (Command.ofParams
      ⟨JsValue.undefined, none, JsValue.undefined, none⟩) =
        CommandTarget.currentGraph := by
  constructor
  · exact (c8_command_parent.2.1 _).mpr rfl
  · exact c8_command_parent.2.2 _ rfl

/-- C9: `Command._updateAsTuples` is total and returns key/value
pairs: on a (non-array, non-null) object update it returns the
object's entries, on an array update in which every element is a
two-element pair with a string first component it returns that array
of pairs, and in every other case — including a `Command` constructed
with no `update` at all — it returns the single pair
`("__root__", update)`. -/
theorem c9_update_as_tuples (c : Command) :
    (∀ fields, c.update = JsValue.obj fields → c._updateAsTuples = fields) ∧
    (∀ es, c.update = JsValue.arr es → es.all isPairEntry = true →
      c._updateAsTuples = es.map pairOf) ∧
    ((∀ fields, c.update ≠ JsValue.obj fields) →
      (∀ es, c.update = JsValue.arr es → es.all isPairEntry = false) →
      c._updateAsTuples = [("__root__", c.update)]) := by
  refine ⟨?_, ?_, ?_⟩
  · intro fields h
    simp [Command._updateAsTuples, h, truthy, jsTypeof, isArray, objectEntries]
  · intro es h hall
    simp [Command._updateAsTuples, h, truthy, jsTypeof, isArray, arrayElems, hall]
  · intro hobj harr
    cases hu : c.update with
    | obj fields => exact absurd hu (hobj fields)
    | arr es =>
      have hall := harr es hu
      simp [Command._updateAsTuples, hu, truthy, jsTypeof, isArray, arrayElems, hall]
    | undefined => simp [Command._updateAsTuples, hu, truthy, jsTypeof, isArray]
    | null => simp [Command._updateAsTuples, hu, truthy, jsTypeof, isArray]
    | bool b => simp [Command._updateAsTuples, hu, truthy, jsTypeof, isArray]
    | num n => simp [Command._updateAsTuples, hu, truthy, jsTypeof, isArray]
    | str s => simp [Command._updateAsTuples, hu, truthy, jsTypeof, isArray]

/-- C9 witness: a concrete object update yields its entries, and a
`Command` constructed with no `update` yields the single pair
`("__root__", undefined)`. -/
theorem c9_witness :
    (Command.ofParams ⟨JsValue.undefined, none,
      JsValue.obj [("foo", JsValue.str "a")], none⟩)._updateAsTuples =
        [("foo", JsValue.str "a")] ∧
    (Command.ofParams
      ⟨JsValue.undefined, none, JsValue.undefined, none⟩)._updateAsTuples =
        [("__root__", JsValue.undefined)] := by
  constructor
  · exact (c9_update_as_tuples _).1 [("foo", JsValue.str "a")] rfl
  · exact (c9_update_as_tuples
      (Command.ofParams ⟨JsValue.undefined, none, JsValue.undefined, none⟩)).2.2
      (fun fields h => JsValue.noConfusion h)
      (fun es h => JsValue.noConfusion h)

/-- C10: `isCommand` is total at the public boundary — on every input,
including `null`, `undefined` and primitives, it returns a boolean
without throwing (its throwing evaluation `isCommandE` always returns
`ok`) — and it returns `true` exactly when the input is a non-null
object value whose `lg_name` property equals `"Command"`; in
particular it returns `true` on the runtime object of every `Command`
produced by the constructor. -/
theorem c10_is_command :
    (∀ x : JsValue, isCommandE x = Except.ok (isCommand x)) ∧
    (∀ x : JsValue, isCommand x = true ↔
      (jsTypeof x = "object" ∧ x ≠ JsValue.null ∧
        getField x "lg_name" = some (JsValue.str "Command"))) ∧
    (∀ args : CommandParams, isCommand (Command.toJs (Command.ofParams args)) = true) := by
  refine ⟨?_, ?_, ?_⟩
  · intro x
    cases x <;> rfl
  · intro x
    cases x with
    | obj fields =>
      simp [isCommand, jsTypeof, truthy, getField, lgNameIsCommand_iff]
    | undefined => simp [isCommand, jsTypeof, getField]
    | null => simp [isCommand, jsTypeof, truthy, getField]
    | bool b => simp [isCommand, jsTypeof, getField]
    | num n => simp [isCommand, jsTypeof, getField]
    | str s => simp [isCommand, jsTypeof, getField]
    | arr es =>
      simp [isCommand, jsTypeof, truthy, getField, lgNameIsCommand]
  · intro args
    rfl

/-- C10 witness: `isCommand` evaluates without throwing on `null`, and
returns `true` on the runtime object of a concretely constructed
`Command`. -/
theorem c10_witness :
    isCommandE JsValue.null = Except.ok (isCommand JsValue.null) ∧
    isCommand (Command.toJs (Command.ofParams
      ⟨JsValue.undefined, none, JsValue.undefined, none⟩)) = true :=
  ⟨c10_is_command.1 JsValue.null,
    c10_is_command.2.2 ⟨JsValue.undefined, none, JsValue.undefined, none⟩⟩

end LangGraph
